import Mathlib

/-! Verification of the go-players-data record pipeline.

Shallow embedding of the repository's core logic:
- `internal/model/model.go` : the `Player` / `PlayerReceive` records;
- `internal/filter/filter.go` : the eligibility filter (`Filter`, `isIgnored`);
- `internal/player` (parser) : normalization (`initPlayer`, `rawToPlayers`,
  `parseTags`, `normalizeMAC`);
- `internal/cluster/cluster.go` : grouping by store number (`ByStoreNumber`);
- `handler.go` : the dispatch loop (`mailByCluster`);
- `internal/fetcher/fetcher.go` : the upstream fetch (`Data`).

Go `time.Time` values and `time.Duration` values are modelled as `Int`
(nanosecond counts); the source compares `time.Since(t).Hours()` with
`maxOffline.Hours()`, i.e. both durations rescaled by the same positive
constant, which is order-isomorphic to comparing the durations directly.
Machine-integer overflow of `strconv.Atoi` (int64 range) is not modelled;
no claim exercises it.
-/

namespace GoPlayersData

/-- Embeds `model.Player` (internal/model/model.go). The Go field `Type` is
renamed `type'` (`type` is a Lean keyword); `LastOnline : time.Time` is an
abstract `Int` timestamp. -/
structure Player where
  number : Int
  id : Int
  groupName : String
  playerName : String
  tags : List String
  scheduleName : String
  timeZoneDiff : Int
  lastOnline : Int
  serial : String
  mac : String
  ip : String
  type' : String
  model : String
  version : String
  storeNumber : Int
  companyName : String
deriving Repr, DecidableEq

/-- Embeds the `criteria` struct of internal/filter/filter.go.
`maxOffline : time.Duration` is an `Int` (nanoseconds). -/
structure criteria where
  ignoredGroups : List String
  allowedCompanies : List String
  ignoredTags : List String
  maxOffline : Int
deriving Repr, DecidableEq

namespace filter

/-- Embeds `criteria.stringInSlice`: linear scan for string membership. -/
def stringInSlice (slice : List String) (s : String) : Bool :=
  slice.any (fun v => v == s)

/-- Embeds `criteria.intersection`: true when the two slices share an element. -/
def intersection (slice1 slice2 : List String) : Bool :=
  slice1.any (fun v => stringInSlice slice2 v)

/-- Embeds `criteria.extractGroupName`: `strings.Split(GroupName, "/")[0]`.
Both Go's `strings.Split` and `String.splitOn` always return a non-empty
list, so the default of `headD` is never used. -/
def extractGroupName (player : Player) : String :=
  (player.groupName.splitOn "/").headD ""

/-- Embeds `criteria.hoursDelta`: `time.Since(t)` at evaluation time `now`
as a duration (the `.Hours()` rescaling is applied to both sides of the
only comparison in the source and so is dropped). -/
def hoursDelta (now t : Int) : Int :=
  now - t

/-- Embeds `criteria.isIgnored` (filter.go lines 55-79): the four exclusion
checks in source order. -/
def isIgnored (c : criteria) (now : Int) (p : Player) : Bool :=
  let groupName := extractGroupName p
  if intersection c.ignoredTags p.tags then true
  else if stringInSlice c.ignoredGroups groupName then true
  else if !(stringInSlice c.allowedCompanies p.companyName) then true
  else if hoursDelta now p.lastOnline ≤ c.maxOffline then true
  else false

/-- Embeds `criteria.Filter` (filter.go lines 36-52): the append loop that
keeps players not ignored; the Go error result is always `nil` and is
dropped. -/
def Filter (c : criteria) (now : Int) (players : List Player) : List Player :=
  players.foldl (fun acc p => if isIgnored c now p then acc else acc ++ [p]) []

theorem stringInSlice_iff (l : List String) (s : String) :
    stringInSlice l s = true ↔ s ∈ l := by
  simp [stringInSlice, List.any_eq_true]

theorem intersection_iff (l1 l2 : List String) :
    intersection l1 l2 = true ↔ ∃ v, v ∈ l1 ∧ v ∈ l2 := by
  simp [intersection, List.any_eq_true, stringInSlice_iff]

theorem Filter_eq_filter (c : criteria) (now : Int) (ps : List Player) :
    Filter c now ps = ps.filter (fun p => !(isIgnored c now p)) := by
  have h : ∀ (l acc : List Player),
      l.foldl (fun acc p => if isIgnored c now p then acc else acc ++ [p]) acc
        = acc ++ l.filter (fun p => !(isIgnored c now p)) := by
    intro l
    induction l with
    | nil => intro acc; simp
    | cons p l ih =>
      intro acc
      by_cases hp : isIgnored c now p = true
      · simp [List.filter_cons, hp, ih]
      · simp [List.filter_cons, hp, ih]
  simpa using h ps []

theorem isIgnored_eq_or (c : criteria) (now : Int) (p : Player) :
    isIgnored c now p
      = (intersection c.ignoredTags p.tags
          || stringInSlice c.ignoredGroups (extractGroupName p)
          || !(stringInSlice c.allowedCompanies p.companyName)
          || decide (hoursDelta now p.lastOnline ≤ c.maxOffline)) := by
  cases h1 : intersection c.ignoredTags p.tags <;>
    cases h2 : stringInSlice c.ignoredGroups (extractGroupName p) <;>
      cases h3 : stringInSlice c.allowedCompanies p.companyName <;>
        by_cases h4 : hoursDelta now p.lastOnline ≤ c.maxOffline <;>
          simp [isIgnored, h1, h2, h3, h4]

end filter

/-- Embeds `model.PlayerReceive` (internal/model/model.go): the raw wire
record, all loosely-typed fields as strings. The Go field `Type` is renamed
`type'`. -/
structure PlayerReceive where
  number : Int
  id : String
  groupName : String
  playerName : String
  tags : String
  scheduleName : String
  timeZoneDiff : String
  lastOnline : String
  serial : String
  mac : String
  ip : String
  type' : String
  model : String
  version : String
deriving Repr, DecidableEq

/-- The typed normalization errors `ErrParseID`, `ErrParseTZ`,
`ErrParseLastOnline` of the player package. -/
inductive NormError where
  | errParseID
  | errParseTZ
  | errParseLastOnline
deriving Repr, DecidableEq

namespace player

/-- Embeds the `parser` struct of the player package: the configuration
fields used by normalization and tag interpretation. The Go fields
`storeNumberPrefix` / `companyNamePrefix` are named with the `Pfx`
abbreviation here; the `companies` map is an association list with unique
keys. -/
structure parser where
  storeTestNumber : Int
  storeNumberPfx : String
  companyNamePfx : String
  companies : List (String × String)
deriving Repr, DecidableEq

/-- Digit-run parser underlying the `strconv.Atoi` model: one or more
decimal digits. -/
def parseDigits (cs : List Char) : Option Nat :=
  if cs.isEmpty then none
  else if cs.all (fun c => c.isDigit) then
    some (cs.foldl (fun a c => a * 10 + (c.toNat - 48)) 0)
  else none

/-- Models `strconv.Atoi`: an optional sign followed by one or more decimal
digits; anything else is an error (`none`). The int64 range check is not
modelled; no claim exercises overflow. -/
def atoi (s : String) : Option Int :=
  match s.data with
  | [] => none
  | '+' :: rest => (parseDigits rest).map (fun n => (n : Int))
  | '-' :: rest => (parseDigits rest).map (fun n => -(n : Int))
  | cs => (parseDigits cs).map (fun n => (n : Int))

/-- Two fixed-width decimal digits, as read by the timestamp parser. -/
def digit2 (a b : Char) : Option Nat :=
  if a.isDigit ∧ b.isDigit then some ((a.toNat - 48) * 10 + (b.toNat - 48))
  else none

/-- Month lengths used by the timestamp validation, leap years included. -/
def daysInMonth (y m : Nat) : Nat :=
  if m = 2 then
    if y % 4 = 0 ∧ (y % 100 ≠ 0 ∨ y % 400 = 0) then 29 else 28
  else if m = 4 ∨ m = 6 ∨ m = 9 ∨ m = 11 then 30
  else 31

/-- Models `time.Parse(time.DateTime, s)` on the canonical
`YYYY-MM-DD HH:MM:SS` form: fixed-width numeric fields, range-checked
month, day (against the month length), hour, minute and second. The result
is a monotone integer encoding standing in for the `time.Time` value.
Relaxed variants Go's parser also accepts (e.g. a single-digit hour) are
not modelled; no claim depends on them. -/
def parseDateTime (s : String) : Option Int :=
  match s.data with
  | [y1, y2, y3, y4, '-', m1, m2, '-', d1, d2, ' ',
      h1, h2, ':', n1, n2, ':', s1, s2] =>
    match digit2 y1 y2, digit2 y3 y4, digit2 m1 m2, digit2 d1 d2,
        digit2 h1 h2, digit2 n1 n2, digit2 s1 s2 with
    | some yh, some yl, some mo, some d, some h, some mi, some se =>
      let y := yh * 100 + yl
      if 1 ≤ mo ∧ mo ≤ 12 ∧ 1 ≤ d ∧ d ≤ daysInMonth y mo
          ∧ h ≤ 23 ∧ mi ≤ 59 ∧ se ≤ 59 then
        some (((((((y * 12 + (mo - 1)) * 31 + (d - 1)) * 24 + h) * 60 + mi)
          * 60 + se : Nat) : Int))
      else none
    | _, _, _, _, _, _, _ => none
  | _ => none

/-- Models `strings.HasPrefix` on the character lists of the strings. -/
def hasPfx (pre s : String) : Bool :=
  pre.data.isPrefixOf s.data

/-- Models `strings.TrimPrefix`: drops the prefix when present, otherwise
returns the string unchanged. -/
def trimPfx (pre s : String) : String :=
  if hasPfx pre s then String.mk (s.data.drop pre.data.length) else s

/-- Character predicate of the `strings.Map` call in `normalizeMAC`: keeps
`0`-`9`, `a`-`f`, `A`-`F` (Go rune comparisons are code-point comparisons,
written here on `Char.toNat`). -/
def isHexRune (c : Char) : Bool :=
  (48 ≤ c.toNat ∧ c.toNat ≤ 57) ∨ (97 ≤ c.toNat ∧ c.toNat ≤ 102)
    ∨ (65 ≤ c.toNat ∧ c.toNat ≤ 70)

/-- Models `strings.ToLower` per character: the strings it is applied to in
this program contain only ASCII hex digits, where lowering is the `+32`
shift on `A`-`Z`. -/
def toLowerRune (c : Char) : Char :=
  if 65 ≤ c.toNat ∧ c.toNat ≤ 90 then Char.ofNat (c.toNat + 32) else c

/-- Models `strings.ToUpper` per character on the same ASCII fragment. -/
def toUpperRune (c : Char) : Char :=
  if 97 ≤ c.toNat ∧ c.toNat ≤ 122 then Char.ofNat (c.toNat - 32) else c

/-- The builder loop of `normalizeMAC`: a `:` before every 2-character
chunk except the first. The input always has even length 12 at the call
site; shorter tails are returned as-is. -/
def insertColons : List Char → List Char
  | a :: b :: c :: rest => a :: b :: ':' :: insertColons (c :: rest)
  | l => l

/-- Embeds `parser.normalizeMAC`: strips non-hex runes, lowercases, checks
for exactly 12 remaining characters, inserts colons every two characters
and uppercases. All retained characters are ASCII, so Go's byte indexing
coincides with character indexing. -/
def normalizeMAC (macRaw : String) : String :=
  if macRaw = "" then ""
  else
    let mac := (macRaw.data.filter isHexRune).map toLowerRune
    if mac.length ≠ 12 then ""
    else String.mk ((insertColons mac).map toUpperRune)

/-- One iteration of the `parseTags` loop, over the pair of derived fields
`(storeNumber, companyName)`: the store-number case is checked first (Go
`switch` order), then the company-name case; tags matching neither leave
the state unchanged. -/
def parseTagsStep (p : parser) (st : Int × String) (tag : String) :
    Int × String :=
  if hasPfx p.storeNumberPfx tag then
    let numberTag := trimPfx p.storeNumberPfx tag
    if numberTag = "" then st
    else
      match atoi numberTag with
      | none => st
      | some n => if n = p.storeTestNumber then st else (n, st.2)
  else if hasPfx p.companyNamePfx tag then
    let companyNameTag := trimPfx p.companyNamePfx tag
    if companyNameTag = "" then st
    else
      match p.companies.lookup companyNameTag with
      | none => (st.1, companyNameTag)
      | some v => (st.1, v)
  else st

/-- Embeds `parser.parseTags`: folds the tag list over the player's two
derived fields. -/
def parseTags (p : parser) (player : Player) : Player :=
  let st := player.tags.foldl (parseTagsStep p)
    (player.storeNumber, player.companyName)
  { player with storeNumber := st.1, companyName := st.2 }

/-- Embeds `parser.initPlayer`: identifier (optional; `ErrParseID` on
non-numeric non-empty), timezone (`ErrParseTZ`), last-online timestamp
(`ErrParseLastOnline`), comma-split tag list, MAC normalization, then tag
interpretation on the freshly built record. -/
def initPlayer (p : parser) (raw : PlayerReceive) : Except NormError Player :=
  match (if raw.id = "" then some 0 else atoi raw.id) with
  | none => .error .errParseID
  | some id =>
    match atoi raw.timeZoneDiff with
    | none => .error .errParseTZ
    | some tz =>
      match parseDateTime raw.lastOnline with
      | none => .error .errParseLastOnline
      | some lastOnline =>
        let tags := if raw.tags = "" then [] else raw.tags.splitOn ","
        let player : Player :=
          { number := raw.number
            id := id
            groupName := raw.groupName
            playerName := raw.playerName
            tags := tags
            scheduleName := raw.scheduleName
            timeZoneDiff := tz
            lastOnline := lastOnline
            serial := raw.serial
            mac := normalizeMAC raw.mac
            ip := raw.ip
            type' := raw.type'
            model := raw.model
            version := raw.version
            storeNumber := 0
            companyName := "" }
        .ok (parseTags p player)

/-- Embeds `parser.rawToPlayers`: initializes each raw record in order,
skipping the ones whose initialization fails; the Go error result is
always `nil` and is dropped. -/
def rawToPlayers (p : parser) (rawPlayers : List PlayerReceive) :
    List Player :=
  rawPlayers.foldl
    (fun players raw =>
      match initPlayer p raw with
      | .error _ => players
      | .ok player => players ++ [player])
    []

/-- Modelled from the spec (section 4.3, claim C4): strip every character
that is not a hexadecimal digit; if the remaining count is not exactly 12
return the empty string, otherwise the 12 hex digits upper-cased with a
colon separator after every 2 characters. -/
def macSpec (s : String) : String :=
  let hex := s.data.filter isHexRune
  if hex.length ≠ 12 then ""
  else String.mk ((insertColons hex).map toUpperRune)

/-- The per-tag store-number assignment (spec section 4.2, claim C3): the
integer suffix of a token matching the store-number prefix, unless the
suffix is empty, non-numeric, or the test-store sentinel. -/
def storeAssignment (p : parser) (tag : String) : Option Int :=
  if hasPfx p.storeNumberPfx tag then
    match atoi (trimPfx p.storeNumberPfx tag) with
    | none => none
    | some n => if n = p.storeTestNumber then none else some n
  else none

/-- Modelled from the spec (claim C3): the accepted store-number
assignments of a tag list, in tag order. -/
def storeAssignments (p : parser) (tags : List String) : List Int :=
  tags.filterMap (storeAssignment p)

/-- The company-name component of `parseTagsStep`: the store-number branch
never writes the company name, so the company field evolves by this
function of the previous company value alone. -/
def companyStep (p : parser) (c : String) (tag : String) : String :=
  if hasPfx p.storeNumberPfx tag then c
  else if hasPfx p.companyNamePfx tag then
    let companyNameTag := trimPfx p.companyNamePfx tag
    if companyNameTag = "" then c
    else
      match p.companies.lookup companyNameTag with
      | none => companyNameTag
      | some v => v
  else c

theorem atoi_empty : atoi "" = none := rfl

theorem parseTagsStep_fst (p : parser) (st : Int × String) (tag : String) :
    (parseTagsStep p st tag).1 = (storeAssignment p tag).getD st.1 := by
  unfold parseTagsStep storeAssignment
  cases h1 : hasPfx p.storeNumberPfx tag
  · cases h2 : hasPfx p.companyNamePfx tag
    · simp [h1, h2]
    · by_cases h3 : trimPfx p.companyNamePfx tag = ""
      · simp [h1, h2, h3]
      · cases h4 : p.companies.lookup (trimPfx p.companyNamePfx tag)
        · simp [h1, h2, h3, h4]
        · simp [h1, h2, h3, h4]
  · by_cases h2 : trimPfx p.storeNumberPfx tag = ""
    · rw [h2]
      simp [h1, h2, atoi_empty]
    · cases ha : atoi (trimPfx p.storeNumberPfx tag) with
      | none => simp [h1, h2, ha]
      | some n =>
        by_cases h3 : n = p.storeTestNumber
        · simp [h1, h2, ha, h3]
        · simp [h1, h2, ha, h3]

theorem parseTagsStep_snd (p : parser) (st : Int × String) (tag : String) :
    (parseTagsStep p st tag).2 = companyStep p st.2 tag := by
  unfold parseTagsStep companyStep
  cases h1 : hasPfx p.storeNumberPfx tag
  · cases h2 : hasPfx p.companyNamePfx tag
    · simp [h1, h2]
    · by_cases h3 : trimPfx p.companyNamePfx tag = ""
      · simp [h1, h2, h3]
      · cases h4 : p.companies.lookup (trimPfx p.companyNamePfx tag)
        · simp [h1, h2, h3, h4]
        · simp [h1, h2, h3, h4]
  · by_cases h2 : trimPfx p.storeNumberPfx tag = ""
    · simp [h1, h2]
    · cases ha : atoi (trimPfx p.storeNumberPfx tag) with
      | none => simp [h1, h2, ha]
      | some n =>
        by_cases h3 : n = p.storeTestNumber
        · simp [h1, h2, ha, h3]
        · simp [h1, h2, ha, h3]

theorem foldl_parseTagsStep_fst (p : parser) :
    ∀ (tags : List String) (st : Int × String),
      (tags.foldl (parseTagsStep p) st).1
        = (storeAssignments p tags).getLastD st.1 := by
  intro tags
  induction tags with
  | nil => intro st; rfl
  | cons tag rest ih =>
    intro st
    rw [List.foldl_cons, ih (parseTagsStep p st tag)]
    unfold storeAssignments
    rw [List.filterMap_cons]
    cases ha : storeAssignment p tag with
    | none =>
      have hfst := parseTagsStep_fst p st tag
      rw [ha, Option.getD_none] at hfst
      rw [hfst]
    | some n =>
      have hfst := parseTagsStep_fst p st tag
      rw [ha] at hfst
      rw [hfst, List.getLastD_cons]
      rfl

theorem foldl_parseTagsStep_snd (p : parser) :
    ∀ (tags : List String) (st : Int × String),
      (tags.foldl (parseTagsStep p) st).2
        = tags.foldl (companyStep p) st.2 := by
  intro tags
  induction tags with
  | nil => intro st; rfl
  | cons tag rest ih =>
    intro st
    rw [List.foldl_cons, List.foldl_cons, ih, parseTagsStep_snd]

theorem parseTags_storeNumber (p : parser) (pl : Player) :
    (parseTags p pl).storeNumber
      = (storeAssignments p pl.tags).getLastD pl.storeNumber := by
  unfold parseTags
  exact foldl_parseTagsStep_fst p pl.tags (pl.storeNumber, pl.companyName)

theorem parseTags_companyName (p : parser) (pl : Player) :
    (parseTags p pl).companyName
      = pl.tags.foldl (companyStep p) pl.companyName := by
  unfold parseTags
  exact foldl_parseTagsStep_snd p pl.tags (pl.storeNumber, pl.companyName)

theorem hasPfx_self (s : String) : hasPfx s s = true := by
  simp [hasPfx, List.isPrefixOf_iff_prefix]

theorem trimPfx_self (s : String) : trimPfx s s = "" := by
  unfold trimPfx
  rw [if_pos (hasPfx_self s)]
  show String.mk (s.data.drop s.data.length) = ""
  rw [List.drop_length]

theorem companyStep_pfx_self (p : parser) (c : String) :
    companyStep p c p.companyNamePfx = c := by
  unfold companyStep
  cases h1 : hasPfx p.storeNumberPfx p.companyNamePfx
  · simp [h1, hasPfx_self, trimPfx_self]
  · simp [h1]

theorem rawToPlayers_eq_filterMap (p : parser) (raws : List PlayerReceive) :
    rawToPlayers p raws
      = raws.filterMap (fun r => (initPlayer p r).toOption) := by
  have h : ∀ (l : List PlayerReceive) (acc : List Player),
      l.foldl
        (fun players raw =>
          match initPlayer p raw with
          | .error _ => players
          | .ok player => players ++ [player]) acc
        = acc ++ l.filterMap (fun r => (initPlayer p r).toOption) := by
    intro l
    induction l with
    | nil => intro acc; simp
    | cons r l ih =>
      intro acc
      cases hr : initPlayer p r with
      | error e => simp [List.filterMap_cons, hr, ih, Except.toOption]
      | ok pl => simp [List.filterMap_cons, hr, ih, Except.toOption]
  simpa using h raws []

theorem insertColons_map (f : Char → Char) (hf : f ':' = ':') :
    ∀ l : List Char, insertColons (l.map f) = (insertColons l).map f
  | a :: b :: c :: rest => by
    show insertColons (f a :: f b :: (c :: rest).map f)
      = (a :: b :: ':' :: insertColons (c :: rest)).map f
    rw [show insertColons (f a :: f b :: (c :: rest).map f)
        = f a :: f b :: ':' :: insertColons ((c :: rest).map f) from rfl]
    rw [insertColons_map f hf (c :: rest)]
    simp [hf]
  | [] => rfl
  | [a] => rfl
  | [a, b] => rfl

theorem mem_insertColons :
    ∀ (l : List Char) (c : Char), c ∈ insertColons l → c = ':' ∨ c ∈ l
  | a :: b :: d :: rest, c, h => by
    rw [show insertColons (a :: b :: d :: rest)
        = a :: b :: ':' :: insertColons (d :: rest) from rfl] at h
    simp only [List.mem_cons] at h ⊢
    rcases h with rfl | rfl | rfl | h
    · tauto
    · tauto
    · tauto
    · rcases mem_insertColons (d :: rest) c h with h' | h'
      · tauto
      · simp only [List.mem_cons] at h'
        tauto
  | [], c, h => Or.inr h
  | [a], c, h => Or.inr h
  | [a, b], c, h => Or.inr h

theorem upper_lower_hex (c : Char) (h : isHexRune c = true) :
    toUpperRune (toLowerRune c) = toUpperRune c := by
  simp only [isHexRune, decide_eq_true_eq] at h
  unfold toLowerRune
  rcases h with ⟨h1, h2⟩ | ⟨h1, h2⟩ | ⟨h1, h2⟩
  · rw [if_neg (by omega)]
  · rw [if_neg (by omega)]
  · rw [if_pos ⟨h1, by omega⟩]
    have hc : Char.ofNat c.toNat = c := Char.ofNat_toNat c
    obtain ⟨n, hn⟩ : ∃ n : Nat, c.toNat = n := ⟨c.toNat, rfl⟩
    rw [hn] at h1 h2 hc ⊢
    subst hc
    interval_cases n <;> decide

theorem normalizeMAC_eq_macSpec (s : String) :
    normalizeMAC s = macSpec s := by
  unfold normalizeMAC macSpec
  by_cases hs : s = ""
  · subst hs; rfl
  · rw [if_neg hs]
    by_cases h12 : (s.data.filter isHexRune).length = 12
    · rw [if_neg (by simp [h12]), if_neg (by simp [h12])]
      congr 1
      rw [insertColons_map toLowerRune (by decide), List.map_map]
      refine List.map_congr_left ?_
      intro a ha
      rcases mem_insertColons _ a ha with rfl | ha'
      · decide
      · simpa using upper_lower_hex a (List.mem_filter.mp ha').2
    · rw [if_pos (by simp [h12]), if_pos (by simp [h12])]

end player

/-- A concrete parser configuration for witnesses: test-store sentinel 0,
prefixes as in the sample configuration, one known company mapping. -/
def cfgEx : player.parser := ⟨0, "STORE_", "LLC_", [("sn", "Some Name")]⟩

/-- A raw record whose identifier field is non-empty and non-numeric. -/
def rawBadId : PlayerReceive :=
  { number := 1, id := "abc", groupName := "g", playerName := "p",
    tags := "", scheduleName := "", timeZoneDiff := "0",
    lastOnline := "2024-01-02 03:04:05", serial := "", mac := "", ip := "",
    type' := "", model := "", version := "" }

/-- A well-formed raw record with an empty identifier field. -/
def rawEmptyId : PlayerReceive :=
  { number := 2, id := "", groupName := "g", playerName := "q",
    tags := "STORE_5,LLC_sn", scheduleName := "", timeZoneDiff := "3",
    lastOnline := "2024-01-02 03:04:05", serial := "", mac := "", ip := "",
    type' := "", model := "", version := "" }

/-- A canonical record with several store-number tags, including the
test-store sentinel and a non-numeric suffix. -/
def playerEx : Player :=
  { number := 1, id := 2, groupName := "g/x", playerName := "n",
    tags := ["STORE_5", "STORE_0", "STORE_7", "STORE_x", "LLC_sn"],
    scheduleName := "", timeZoneDiff := 0, lastOnline := 0, serial := "",
    mac := "", ip := "", type' := "", model := "", version := "",
    storeNumber := 0, companyName := "" }

/-- C2: a raw record whose identifier field is non-empty and non-numeric
normalizes to `ErrParseID` and is excluded from the canonical output, while
every sibling that normalizes successfully is kept (the batch result is
exactly the successful normalizations, in order); a raw record with an
empty identifier field never yields `ErrParseID` and, when it normalizes,
has identifier 0. -/
theorem C2_normalization (p : player.parser) (raws : List PlayerReceive)
    (r : PlayerReceive) (h1 : r.id ≠ "") (h2 : player.atoi r.id = none) :
    player.initPlayer p r = Except.error NormError.errParseID ∧
    player.rawToPlayers p raws
      = raws.filterMap (fun x => (player.initPlayer p x).toOption) ∧
    (∀ r2 : PlayerReceive, r2.id = "" →
      player.initPlayer p r2 ≠ Except.error NormError.errParseID ∧
      ∀ pl, player.initPlayer p r2 = Except.ok pl → pl.id = 0) := by
  refine ⟨?_, player.rawToPlayers_eq_filterMap p raws, ?_⟩
  · unfold player.initPlayer
    rw [if_neg h1, h2]
  · intro r2 hr2
    unfold player.initPlayer
    rw [if_pos hr2]
    cases htz : player.atoi r2.timeZoneDiff with
    | none =>
      refine ⟨by simp, ?_⟩
      intro pl hpl
      exact absurd hpl (by simp)
    | some tz =>
      cases hlo : player.parseDateTime r2.lastOnline with
      | none =>
        refine ⟨by simp, ?_⟩
        intro pl hpl
        exact absurd hpl (by simp)
      | some t =>
        refine ⟨by simp, ?_⟩
        intro pl hpl
        simp only [Except.ok.injEq] at hpl
        rw [← hpl]
        rfl

/-- Witness for C2 at a concrete bad-identifier record. -/
theorem C2_normalization_witness :
    player.initPlayer cfgEx rawBadId = Except.error NormError.errParseID :=
  (C2_normalization cfgEx [] rawBadId (by decide) (by decide)).1

/-- C3: for a canonical record (derived store identifier initialized to 0),
the store identifier after tag interpretation is the last accepted
store-number assignment in tag order — tokens matching the store-number
prefix whose suffix is empty, non-numeric, or equal to the test-store
sentinel are skipped and leave the prior value — and 0 when no token
assigns one. -/
theorem C3_store_last_match (p : player.parser) (pl : Player)
    (h : pl.storeNumber = 0) :
    (player.parseTags p pl).storeNumber
      = (player.storeAssignments p pl.tags).getLastD 0 := by
  rw [player.parseTags_storeNumber, h]

/-- Witness for C3 at a concrete record: the tags assign 5, skip the
sentinel 0 and the non-numeric suffix, and finally assign 7. -/
theorem C3_store_last_match_witness :
    playerEx.storeNumber = 0 ∧
    (player.parseTags cfgEx playerEx).storeNumber
      = (player.storeAssignments cfgEx playerEx.tags).getLastD 0 ∧
    (player.parseTags cfgEx playerEx).storeNumber = 7 :=
  ⟨rfl, C3_store_last_match cfgEx playerEx rfl, by decide⟩

/-- C4: MAC formatting agrees everywhere with the spec algorithm — strip
non-hex characters, demand exactly 12, uppercase with colons every two
characters — and on the spec's two concrete examples; it is a total
function (never fails). -/
theorem C4_normalizeMAC :
    (∀ s : String, player.normalizeMAC s = player.macSpec s) ∧
    player.normalizeMAC "aa-bb-cc-dd-ee-ff" = "AA:BB:CC:DD:EE:FF" ∧
    player.normalizeMAC "invalid" = "" :=
  ⟨player.normalizeMAC_eq_macSpec, by decide, by decide⟩

/-- C10: a tag token equal to the company-name prefix alone (empty
remainder) is skipped by tag interpretation: the derived company name is
exactly what it would be if the token were absent. -/
theorem C10_empty_company_tag (p : player.parser) (pl : Player)
    (l1 l2 : List String) :
    (player.parseTags p
        { pl with tags := l1 ++ p.companyNamePfx :: l2 }).companyName
      = (player.parseTags p { pl with tags := l1 ++ l2 }).companyName := by
  rw [player.parseTags_companyName, player.parseTags_companyName]
  show (l1 ++ p.companyNamePfx :: l2).foldl (player.companyStep p)
      pl.companyName
    = (l1 ++ l2).foldl (player.companyStep p) pl.companyName
  rw [List.foldl_append, List.foldl_append, List.foldl_cons,
    player.companyStep_pfx_self]

namespace cluster

/-- Embeds `cluster.ByStoreNumber` (internal/cluster/cluster.go lines
18-30): folds the player list into a map from store number to the players
carrying it, appending in input order. Go's `map[int][]*model.Player` is
modelled as a total function with the empty list as absent-key default;
the source's explicit empty-slice initialization makes absent and empty
indistinguishable. -/
def ByStoreNumber (players : List Player) : Int → List Player :=
  players.foldl
    (fun m p k => if k = p.storeNumber then m p.storeNumber ++ [p] else m k)
    (fun _ => [])

theorem foldl_byStore (players : List Player) :
    ∀ (m : Int → List Player) (k : Int),
      (players.foldl
        (fun m p k =>
          if k = p.storeNumber then m p.storeNumber ++ [p] else m k) m) k
        = m k ++ players.filter (fun p => decide (p.storeNumber = k)) := by
  induction players with
  | nil => intro m k; simp
  | cons p l ih =>
    intro m k
    rw [List.foldl_cons, ih]
    by_cases hk : k = p.storeNumber
    · simp [hk, List.filter_cons, List.append_assoc]
    · simp [hk, List.filter_cons, Ne.symm hk]

theorem ByStoreNumber_eq_filter (players : List Player) (k : Int) :
    ByStoreNumber players k
      = players.filter (fun p => decide (p.storeNumber = k)) := by
  have h := foldl_byStore players (fun _ => []) k
  simpa [ByStoreNumber] using h

theorem sum_map_ite_of_nodup (x : Int) (c : Nat) :
    ∀ (ks : List Int), ks.Nodup →
      (ks.map (fun k => if k = x then c else 0)).sum
        = if x ∈ ks then c else 0 := by
  intro ks
  induction ks with
  | nil => intro _; simp
  | cons k ks ih =>
    intro h
    rw [List.nodup_cons] at h
    obtain ⟨hk, hnd⟩ := h
    rw [List.map_cons, List.sum_cons, ih hnd]
    by_cases hx : k = x
    · subst hx
      simp [hk]
    · simp [hx, Ne.symm hx, List.mem_cons]

end cluster

namespace handler

/-- The observable outcome of one `mailByCluster` run: the notification
attempts in iteration order and the recorded failures (the
`logger.Error` calls carrying the store number and the record count). -/
structure DispatchLog where
  invoked : List (Int × List Player)
  failures : List (Int × Nat)
deriving Repr, DecidableEq

/-- Embeds the `Response` struct of handler.go. -/
structure Response where
  statusCode : Int
  body : String
deriving Repr, DecidableEq

/-- Embeds `mailByCluster` (handler.go lines 129-157): one `Send` per
cluster; a failing send is only logged (store number and player count) and
nothing is returned. The semaphore and wait-group only schedule the
per-group work, which is modelled here in iteration order; Go map
iteration order is unspecified, so theorems quantify over the cluster
list order. -/
def mailByCluster (send : Int → List Player → Except String Unit)
    (clusters : List (Int × List Player)) : DispatchLog :=
  clusters.foldl
    (fun log c =>
      match send c.1 c.2 with
      | .error _ =>
        { invoked := log.invoked ++ [c],
          failures := log.failures ++ [(c.1, c.2.length)] }
      | .ok _ => { invoked := log.invoked ++ [c], failures := log.failures })
    ⟨[], []⟩

/-- Embeds the tail of `Handler` (handler.go lines 110-125): dispatch the
clusters through `mailByCluster`, then unconditionally return status 200
with body "Successful response" and a `nil` error. -/
def handlerDispatch (send : Int → List Player → Except String Unit)
    (clusters : List (Int × List Player)) : Response × Option String :=
  let _ := mailByCluster send clusters
  ({ statusCode := 200, body := "Successful response" }, none)

theorem mailByCluster_log (send : Int → List Player → Except String Unit)
    (clusters : List (Int × List Player)) :
    (mailByCluster send clusters).invoked = clusters ∧
    (mailByCluster send clusters).failures
      = clusters.filterMap (fun c =>
          match send c.1 c.2 with
          | .error _ => some (c.1, c.2.length)
          | .ok _ => none) := by
  have h : ∀ (l : List (Int × List Player)) (acc : DispatchLog),
      (l.foldl
        (fun log c =>
          match send c.1 c.2 with
          | .error _ =>
            { invoked := log.invoked ++ [c],
              failures := log.failures ++ [(c.1, c.2.length)] }
          | .ok _ =>
            { invoked := log.invoked ++ [c], failures := log.failures })
        acc).invoked = acc.invoked ++ l ∧
      (l.foldl
        (fun log c =>
          match send c.1 c.2 with
          | .error _ =>
            { invoked := log.invoked ++ [c],
              failures := log.failures ++ [(c.1, c.2.length)] }
          | .ok _ =>
            { invoked := log.invoked ++ [c], failures := log.failures })
        acc).failures
        = acc.failures ++ l.filterMap (fun c =>
            match send c.1 c.2 with
            | .error _ => some (c.1, c.2.length)
            | .ok _ => none) := by
    intro l
    induction l with
    | nil => intro acc; simp
    | cons c l ih =>
      intro acc
      simp only [List.foldl_cons, List.filterMap_cons]
      cases hc : send c.1 c.2 with
      | error e =>
        constructor
        · rw [(ih _).1]
          simp
        · rw [(ih _).2]
          simp
      | ok u =>
        constructor
        · rw [(ih _).1]
          simp
        · rw [(ih _).2]
  exact ⟨(h clusters ⟨[], []⟩).1, (h clusters ⟨[], []⟩).2⟩

/-- A notifier failing exactly for store 2, for the concrete three-group
scenario. -/
def send3 : Int → List Player → Except String Unit :=
  fun sn _ => if sn = 2 then Except.error "smtp" else Except.ok ()

/-- Three clusters for the concrete scenario. -/
def clusters3 : List (Int × List Player) :=
  [(1, [playerEx]), (2, [playerEx]), (3, [])]

end handler

namespace fetcher

/-- A successful result of the Go HTTP client call: status code and the
bytes of the response body. -/
structure HTTPResponse where
  statusCode : Int
  body : String
deriving Repr, DecidableEq

/-- The observable outcome of `fetcher.Data`: the fetched body, a surfaced
error (`HTTPError{Code}` for a non-200 status), or a runtime panic. -/
inductive FetchOutcome where
  | ok (body : String)
  | err (statusCode : Int)
  | panicked
deriving Repr, DecidableEq

/-- Embeds `fetcher.Data` (internal/fetcher/fetcher.go lines 44-81) from
the `f.client.Do(req)` call onward, as a function of that call's result
(`none` models a transport error, where Go guarantees `resp == nil`).
When `Do` fails the source only logs the error — the `return` is missing —
and proceeds to `defer resp.Body.Close()` and `resp.StatusCode` with
`resp` nil, a nil-pointer dereference, modelled as `panicked`. Otherwise a
non-200 status yields `HTTPError{resp.StatusCode}` and a 200 status
yields the body (the `io.ReadAll` error path is not reachable in this
model). -/
def Data (doResult : Option HTTPResponse) : FetchOutcome :=
  match doResult with
  | none => .panicked
  | some resp =>
    if resp.statusCode ≠ 200 then .err resp.statusCode else .ok resp.body

end fetcher

/-- C5: grouping by store number is a proper partition: each group is the
order-preserving subsequence of the input with that store number (so every
record is in exactly the group keyed by its own store identifier, key 0
when unassigned), and the concatenation of the groups over the distinct
store numbers is a permutation of the input (multiset union equals the
input). -/
theorem C5_grouping_partition (players : List Player) :
    (∀ k, cluster.ByStoreNumber players k
        = players.filter (fun p => decide (p.storeNumber = k))) ∧
    (∀ p, p ∈ players →
      ∀ k, p ∈ cluster.ByStoreNumber players k ↔ k = p.storeNumber) ∧
    (((players.map (fun p => p.storeNumber)).dedup.map
        (fun k => cluster.ByStoreNumber players k)).flatten.Perm players) := by
  refine ⟨fun k => cluster.ByStoreNumber_eq_filter players k, ?_, ?_⟩
  · intro p hp k
    rw [cluster.ByStoreNumber_eq_filter, List.mem_filter]
    constructor
    · rintro ⟨_, hdec⟩
      exact (of_decide_eq_true hdec).symm
    · rintro rfl
      exact ⟨hp, by simp⟩
  · rw [List.perm_iff_count]
    intro a
    rw [List.count_flatten, List.map_map]
    simp only [Function.comp_def]
    have hterm : ∀ k, List.count a (cluster.ByStoreNumber players k)
        = if k = a.storeNumber then List.count a players else 0 := by
      intro k
      rw [cluster.ByStoreNumber_eq_filter]
      by_cases hk : k = a.storeNumber
      · rw [List.count_filter (by simp [hk]), if_pos hk]
      · rw [if_neg hk, List.count_eq_zero]
        intro hmem
        rw [List.mem_filter] at hmem
        exact hk (of_decide_eq_true hmem.2).symm
    rw [List.map_congr_left (fun k _ => hterm k)]
    rw [cluster.sum_map_ite_of_nodup a.storeNumber (List.count a players)
      (players.map (fun p => p.storeNumber)).dedup
      (List.nodup_dedup _)]
    by_cases ha : a ∈ players
    · rw [if_pos (List.mem_dedup.2 (List.mem_map_of_mem _ ha))]
    · rw [List.count_eq_zero.2 ha]
      simp

/-- C6: a failing notification attempt is recorded (store number, record
count) and neither propagates as an error of the dispatch coordinator nor
prevents the notifier being invoked for every other group: the invocation
list is always the whole cluster list, the handler's run-level result is
always status 200 with a `nil` error, and in the concrete three-group
scenario with the notifier failing exactly for store 2, all three groups
are attempted and exactly one failure is recorded. -/
theorem C6_dispatch_isolation :
    (∀ (send : Int → List Player → Except String Unit)
        (clusters : List (Int × List Player)),
      (handler.mailByCluster send clusters).invoked = clusters ∧
      (handler.mailByCluster send clusters).failures
        = clusters.filterMap (fun c =>
            match send c.1 c.2 with
            | .error _ => some (c.1, c.2.length)
            | .ok _ => none) ∧
      handler.handlerDispatch send clusters
        = ({ statusCode := 200, body := "Successful response" }, none)) ∧
    (handler.mailByCluster handler.send3 handler.clusters3).invoked
      = handler.clusters3 ∧
    (handler.mailByCluster handler.send3 handler.clusters3).failures
      = [(2, 1)] ∧
    handler.handlerDispatch handler.send3 handler.clusters3
      = ({ statusCode := 200, body := "Successful response" }, none) := by
  refine ⟨?_, ?_, by decide, rfl⟩
  · intro send clusters
    exact ⟨(handler.mailByCluster_log send clusters).1,
      (handler.mailByCluster_log send clusters).2, rfl⟩
  · exact (handler.mailByCluster_log handler.send3 handler.clusters3).1

/-- C8 (divergence support): the dispatch stage receives no deadline or
cancellation input — `mailByCluster` is a function of the notifier and the
clusters alone — so for any notifier, including one modelling calls issued
after the caller's deadline expired, every group is still attempted and
the handler still reports success; no group is skipped at expiry. -/
theorem C8_dispatch_ignores_deadline
    (send : Int → List Player → Except String Unit)
    (clusters : List (Int × List Player)) :
    (handler.mailByCluster send clusters).invoked = clusters ∧
    handler.handlerDispatch send clusters
      = ({ statusCode := 200, body := "Successful response" }, none) :=
  ⟨(handler.mailByCluster_log send clusters).1, rfl⟩

/-- C9 (refuting the claim on the code): when the transport call fails
(`client.Do` returns an error, so the response is nil), `Data` does not
surface the error to its caller — the missing early return makes it
dereference the nil response, a panic. -/
theorem C9_fetch_transport_panics :
    fetcher.Data none = fetcher.FetchOutcome.panicked := rfl

/-- C1: a record is excluded by the filter iff at least one of the four
conditions holds: a tag in the ignored-tags set, first slash segment of the
group name in the ignored-groups set, company name not in the
allowed-companies set, or elapsed time since last-seen at most the
maximum-offline threshold; `Filter` keeps exactly the records satisfying
none of them, preserving order. -/
theorem C1_filter_exclusion (c : criteria) (now : Int) :
    (∀ ps : List Player,
        filter.Filter c now ps
          = ps.filter (fun p => !(filter.isIgnored c now p))) ∧
    (∀ p : Player,
        filter.isIgnored c now p = true ↔
          ((∃ t, t ∈ p.tags ∧ t ∈ c.ignoredTags) ∨
            (p.groupName.splitOn "/").headD "" ∈ c.ignoredGroups ∨
            p.companyName ∉ c.allowedCompanies ∨
            now - p.lastOnline ≤ c.maxOffline)) := by
  constructor
  · exact fun ps => filter.Filter_eq_filter c now ps
  · intro p
    rw [filter.isIgnored_eq_or]
    simp only [Bool.or_eq_true, filter.intersection_iff, filter.stringInSlice_iff,
      Bool.not_eq_true', ← Bool.not_eq_true, decide_eq_true_eq,
      filter.extractGroupName, filter.hoursDelta]
    constructor
    · rintro (((h | h) | h) | h)
      · obtain ⟨v, hv1, hv2⟩ := h
        exact Or.inl ⟨v, hv2, hv1⟩
      · exact Or.inr (Or.inl h)
      · exact Or.inr (Or.inr (Or.inl (by simpa [filter.stringInSlice_iff] using h)))
      · exact Or.inr (Or.inr (Or.inr h))
    · rintro (⟨t, ht1, ht2⟩ | h | h | h)
      · exact Or.inl (Or.inl (Or.inl ⟨t, ht2, ht1⟩))
      · exact Or.inl (Or.inl (Or.inr h))
      · exact Or.inl (Or.inr (by simpa [filter.stringInSlice_iff] using h))
      · exact Or.inr h

/-- C7: filtering is idempotent — applying `Filter` with the same criteria
(and the same evaluation time) to its own output returns it unchanged. -/
theorem C7_filter_idempotent (c : criteria) (now : Int) (ps : List Player) :
    filter.Filter c now (filter.Filter c now ps) = filter.Filter c now ps := by
  simp only [filter.Filter_eq_filter, List.filter_filter]
  simp

end GoPlayersData
